import Mathlib

/-!
Verification of the process-supervision core of `telepresence/runner.py`.

The embedding models:
* `pump_stream` — the per-stream reader thread body: it invokes the line
  callback once per line read from the stream, then once with the
  end-of-stream marker `None` (here `Option.none`).
* text-mode line splitting (`universal_newlines=True`): iterating a Python
  text stream yields each line *including* its trailing newline character.
* `make_logger` — the logger closures (plain and capturing) and the
  `"{:>3d}".format(track)` prefix.
* the `Runner` counter (`self.counter = track = self.counter + 1`) shared by
  `check_call`, `get_output` and `popen`.
* `run_command` / `check_call` / `get_output` result behaviour, with
  `CalledProcessError` as the failure value.
* `launch_command`'s stdin normalization and payload feeding, and the event
  traces its pump threads and `joiner` thread can produce.
-/

namespace Telepresence

/-- Python text-mode line splitting, on the character list of the stream
contents: each `'\n'` closes a line that *keeps* the newline character; a
trailing chunk without a newline is also a line.  `acc` holds the current
line's characters in reverse. -/
def splitLinesCore : List Char → List Char → List (List Char)
  | [], acc => if acc.isEmpty then [] else [acc.reverse]
  | c :: rest, acc =>
    if c = '\n' then (acc.reverse ++ ['\n']) :: splitLinesCore rest []
    else splitLinesCore rest (c :: acc)

/-- The successive lines obtained by iterating a Python text stream whose
whole contents are `s` (`for line in stream`): lines keep their trailing
newline. -/
def readLines (s : String) : List String :=
  (splitLinesCore s.data []).map fun cs => String.mk cs

/-- `pump_stream(callback, stream)`: the sequence of values passed to
`callback`, given the list of lines the stream yields — one call per line,
then exactly one call with `None`. -/
def pump_stream (stream : List String) : List (Option String) :=
  stream.map some ++ [none]

/-- The callback-invocation sequence of a pump reading a stream whose raw
contents are `raw`. -/
def pump_deliveries (raw : String) : List (Option String) :=
  pump_stream (readLines raw)

/-- Python's `"".join` on a list of strings. -/
def joinStrings (l : List String) : String :=
  l.foldl (· ++ ·) ""

/-- Python's whitespace set for `str.strip()`. -/
def isPyWhitespace (c : Char) : Bool :=
  c == ' ' || c == '\t' || c == '\n' || c == '\r' || c == '\x0b' ||
    c == '\x0c'

/-- Python's `str.strip()`: remove leading and trailing whitespace. -/
def pyStrip (s : String) : String :=
  String.mk
    (((s.data.dropWhile isPyWhitespace).reverse.dropWhile
      isPyWhitespace).reverse)

/-- `CalledProcessError(returncode, cmd, output)`: the failure value raised
by `run_command` (no output attached) and re-raised by `get_output` with the
captured output attached. -/
structure CalledProcessError where
  returncode : Int
  cmd : List String
  output : Option String
deriving DecidableEq, Repr

/-- The `Runner` object's mutable state relevant to track assignment:
`self.counter`, initialised to 0 in `__init__`. -/
structure RunnerState where
  counter : Nat
deriving DecidableEq, Repr

/-- `self.counter = track = self.counter + 1`: draw the next track id and
update the shared counter. -/
def next_track (s : RunnerState) : Nat × RunnerState :=
  (s.counter + 1, { counter := s.counter + 1 })

/-- `run_command`: wait for the child, then `if retcode: raise
CalledProcessError(retcode, args)`, else return normally.  `retcode` is the
child's exit status. -/
def run_command (args : List String) (retcode : Int) :
    Except CalledProcessError Unit :=
  if retcode ≠ 0 then Except.error ⟨retcode, args, none⟩ else Except.ok ()

/-- `check_call`: draw a track, then run the command via `run_command`.
Returns the updated runner state and the outcome. -/
def check_call (s : RunnerState) (args : List String) (retcode : Int) :
    RunnerState × Except CalledProcessError Unit :=
  let (_, s') := next_track s
  (s', run_command args retcode)

/-- `get_output`: draw a track, run the command capturing the pump's
deliveries into `capture` (a `CalledProcessError` is remembered, not
raised), wait until the end-of-stream marker is the last element of
`capture`, delete it (`del capture[-1]`), join and strip the rest, and
either re-raise the remembered error with the output attached or return the
output.  `rawStdout` is the raw contents of the child's stdout stream. -/
def get_output (s : RunnerState) (args : List String) (rawStdout : String)
    (retcode : Int) : RunnerState × Except CalledProcessError String :=
  let (_, s') := next_track s
  let capture := pump_deliveries rawStdout
  let kept := capture.dropLast
  let output := pyStrip (joinStrings (kept.filterMap id))
  match run_command args retcode with
  | Except.error e => (s', Except.error ⟨e.returncode, e.cmd, some output⟩)
  | Except.ok () => (s', Except.ok output)

/-- `popen`'s interaction with the counter: it draws a track exactly like
the synchronous modes before launching. -/
def popen_track (s : RunnerState) : Nat × RunnerState :=
  next_track s

/-- The three execution modes of the `Runner`. -/
inductive Mode
  | checkCall
  | getOutput
  | spawn
deriving DecidableEq, Repr

/-- The track id drawn by one invocation of the given mode: all three modes
execute `self.counter = track = self.counter + 1` on the shared counter. -/
def invoke_track : Mode → RunnerState → Nat × RunnerState
  | Mode.checkCall, s => next_track s
  | Mode.getOutput, s => next_track s
  | Mode.spawn, s => popen_track s

/-- The tracks issued by a sequence of invocations of arbitrary modes,
threading the shared counter. -/
def run_invocations (s : RunnerState) : List Mode → List Nat
  | [] => []
  | m :: ms =>
    let (t, s') := invoke_track m s
    t :: run_invocations s' ms

/-- A fresh `Runner`'s counter state (`self.counter = 0`). -/
def initRunner : RunnerState := { counter := 0 }

/-- The track prefix used by `make_logger`: `"{:>3d}".format(track)`, i.e.
the decimal rendering of `track` right-aligned in a field of width 3,
padded with spaces on the left (no padding once the number has three or
more digits). -/
def formatTrack (track : Nat) : String :=
  let s := toString track
  String.mk (List.replicate (3 - s.length) ' ') ++ s

/-- What a logger closure can mutate: the output sink (`self.output`,
recorded as pairs of the prefix passed to `write` and the line) and the
capture list it may have closed over. -/
structure LogState where
  sink : List (String × String)
  capture : List (Option String)
deriving DecidableEq, Repr

/-- The `capture is None` variant of `make_logger`'s closure: write the
line to the sink with the track prefix unless it is the `None` marker. -/
def logger_plain (pfx : String) (st : LogState) (line : Option String) :
    LogState :=
  match line with
  | none => st
  | some l => { st with sink := st.sink ++ [(pfx, l)] }

/-- The capturing variant of `make_logger`'s closure: always append the
line (marker included) to the capture list, then write it to the sink with
the track prefix unless it is the `None` marker. -/
def logger_capture (pfx : String) (st : LogState) (line : Option String) :
    LogState :=
  let st' := { st with capture := st.capture ++ [line] }
  match line with
  | none => st'
  | some l => { st' with sink := st'.sink ++ [(pfx, l)] }

/-- `make_logger(track, capture)`: build the logging callback, with the
prefix `"{:>3d}".format(track)`; `cap` tells whether a capture list was
supplied. -/
def make_logger (track : Nat) (cap : Bool) :
    LogState → Option String → LogState :=
  if cap then logger_capture (formatTrack track)
  else logger_plain (formatTrack track)

/-- A child stream configuration for stdin. -/
inductive StdinSpec
  | devnull
  | pipe
  | override (tag : Nat)
deriving DecidableEq, Repr

/-- An input payload value: Python distinguishes a bytes payload from a
text (`str`) payload, and `str(in_data, "utf-8")` at the feeding site only
accepts bytes.  For a bytes payload the model carries the utf-8-decoded
text. -/
inductive Payload
  | bytes (data : String)
  | text (data : String)
deriving DecidableEq, Repr

/-- Python truthiness of a payload: empty bytes and the empty string are
falsy. -/
def Payload.truthy : Payload → Bool
  | Payload.bytes d => !(d == "")
  | Payload.text d => !(d == "")

/-- The keyword arguments of `launch_command` relevant to stdin handling:
whether the `input` key is present, its payload (only meaningful when the
key is present; `Payload.bytes ""` models a falsy payload), and an
explicit non-`None` `stdin` override if any. -/
structure LaunchKwargs where
  hasInput : Bool
  inputData : Payload
  stdinOverride : Option StdinSpec
deriving DecidableEq, Repr

/-- What `launch_command` did about stdin by the time it returns: the
stream configuration passed to `Popen`, the data written to the pipe, and
whether the pipe was closed. -/
structure StdinResult where
  stdin : StdinSpec
  written : String
  closed : Bool
deriving DecidableEq, Repr

/-- An exception escaping `launch_command`'s stdin handling: the
`assert kwargs.get("stdin") is None` fires as `AssertionError`, and
`str(in_data, "utf-8")` on a `str` payload fires as `TypeError`. -/
inductive PyError
  | assertionError
  | typeError
deriving DecidableEq, Repr

/-- `launch_command`'s stdin normalization and payload feeding.
`in_data = kwargs.get("input")`; if the `input` key is present, the
`assert kwargs.get("stdin") is None` raises `AssertionError` when an
explicit stdin override was also supplied, and otherwise stdin becomes a
pipe; absent the `input` key, an explicit override is kept and otherwise
stdin is `DEVNULL`.  After spawning, only `if in_data:` — the payload is
truthy — is the payload fed: `str(in_data, "utf-8")` decodes a bytes
payload but raises `TypeError` on a text payload, and after a successful
write the pipe is closed. -/
def launch_stdin (kw : LaunchKwargs) : Except PyError StdinResult :=
  match
    (if kw.hasInput then
      match kw.stdinOverride with
      | some _ => Except.error PyError.assertionError
      | none => Except.ok StdinSpec.pipe
    else
      match kw.stdinOverride with
      | some s => Except.ok s
      | none => Except.ok StdinSpec.devnull : Except PyError StdinSpec)
  with
  | Except.error e => Except.error e
  | Except.ok cfg =>
    if kw.hasInput && kw.inputData.truthy then
      match kw.inputData with
      | Payload.bytes d => Except.ok ⟨cfg, d, true⟩
      | Payload.text _ => Except.error PyError.typeError
    else
      Except.ok ⟨cfg, "", false⟩

/-- Observable events of one launch: a callback invocation by the stdout
pump, one by the stderr pump, and the `done(process)` call made by the
`joiner` thread. -/
inductive Event
  | out (line : Option String)
  | err (line : Option String)
  | complete
deriving DecidableEq, Repr

/-- `Interleave l r t`: `t` is an interleaving of `l` and `r` that keeps
the relative order within each of `l` and `r` — the possible merged
schedules of two concurrent threads' event sequences. -/
inductive Interleave : List Event → List Event → List Event → Prop
  | nil : Interleave [] [] []
  | left {a : Event} {l r t : List Event} :
      Interleave l r t → Interleave (a :: l) r (a :: t)
  | right {a : Event} {l r t : List Event} :
      Interleave l r t → Interleave l (a :: r) (a :: t)

/-- The stdout pump thread's event sequence: started only when
`process.stdout` is piped, in which case it delivers the stream's lines and
then the marker. -/
def outTrace (piped : Bool) (raw : String) : List Event :=
  if piped then (pump_deliveries raw).map Event.out else []

/-- The stderr pump thread's event sequence, analogous to `outTrace`. -/
def errTrace (piped : Bool) (raw : String) : List Event :=
  if piped then (pump_deliveries raw).map Event.err else []

/-- The event traces one launch can produce.  The two pump threads run
concurrently, so their event sequences interleave arbitrarily; the `joiner`
thread is started only `if done and threads:` — a completion callback was
supplied and at least one pump was started — and it `join`s every pump
thread before calling `done(process)`, so its single `complete` event comes
after all pump events. -/
def LaunchTrace (outPiped errPiped : Bool) (outRaw errRaw : String)
    (hasDone : Bool) (tr : List Event) : Prop :=
  ∃ base, Interleave (outTrace outPiped outRaw) (errTrace errPiped errRaw)
      base ∧
    tr = base ++
      (if hasDone && (outPiped || errPiped) then [Event.complete] else [])

/-- Stripping the trailing newline from a line.  Modelled from the spec:
the spec claims pump lines are delivered "newline-stripped per platform
line semantics", so a line ending in `'\n'` would lose that character
before delivery; this definition exists to be compared with what
`pump_stream` actually delivers. -/
def rstripNewline (s : String) : String :=
  match s.data.reverse with
  | '\n' :: rest => String.mk rest.reverse
  | _ => s

theorem splitLinesCore_flatten (cs : List Char) :
    ∀ acc, (splitLinesCore cs acc).flatten = acc.reverse ++ cs := by
  induction cs with
  | nil =>
    intro acc
    by_cases h : acc.isEmpty
    · simp [splitLinesCore, h, List.isEmpty_iff.mp h]
    · simp [splitLinesCore, h]
  | cons c rest ih =>
    intro acc
    by_cases h : c = '\n'
    · simp [splitLinesCore, h, ih]
    · simp [splitLinesCore, h, ih]

theorem data_joinStrings (ls : List String) :
    (joinStrings ls).data = (ls.map String.data).flatten := by
  suffices h : ∀ (acc : String),
      (ls.foldl (· ++ ·) acc).data = acc.data ++ (ls.map String.data).flatten by
    simpa using h ""
  induction ls with
  | nil => intro acc; simp
  | cons l ls ih =>
    intro acc
    simp [List.foldl_cons, ih, String.data_append]

/-- Reading the lines of a text stream loses no characters: concatenating
the lines read gives back the raw stream contents. -/
theorem joinStrings_readLines (raw : String) :
    joinStrings (readLines raw) = raw := by
  apply String.ext
  rw [data_joinStrings]
  unfold readLines
  rw [List.map_map]
  have : (String.data ∘ fun cs => String.mk cs) = id := rfl
  rw [this, List.map_id, splitLinesCore_flatten]
  simp

theorem Interleave.count {l r t : List Event} (h : Interleave l r t)
    (a : Event) : t.count a = l.count a + r.count a := by
  induction h with
  | nil => simp
  | left _ ih => simp [List.count_cons, ih]; omega
  | right _ ih => simp [List.count_cons, ih]; omega

theorem Interleave.mem_iff {l r t : List Event} (h : Interleave l r t)
    {a : Event} : a ∈ t ↔ a ∈ l ∨ a ∈ r := by
  induction h with
  | nil => simp
  | left _ ih => simp [ih]; tauto
  | right _ ih => simp [ih]; tauto

theorem Interleave.nil_left (r : List Event) : Interleave [] r r := by
  induction r with
  | nil => exact Interleave.nil
  | cons a r ih => exact Interleave.right ih

theorem Interleave.nil_right (l : List Event) : Interleave l [] l := by
  induction l with
  | nil => exact Interleave.nil
  | cons a l ih => exact Interleave.left ih

theorem Interleave.append_schedule (l r : List Event) :
    Interleave l r (l ++ r) := by
  induction l with
  | nil => simpa using Interleave.nil_left r
  | cons a l ih => exact Interleave.left ih

theorem count_complete_outTrace (piped : Bool) (raw : String) :
    (outTrace piped raw).count Event.complete = 0 := by
  cases piped <;>
    simp [outTrace, List.count_eq_zero, pump_deliveries, pump_stream]

theorem count_complete_errTrace (piped : Bool) (raw : String) :
    (errTrace piped raw).count Event.complete = 0 := by
  cases piped <;>
    simp [errTrace, List.count_eq_zero, pump_deliveries, pump_stream]

theorem out_marker_mem_outTrace (raw : String) :
    Event.out none ∈ outTrace true raw := by
  simp [outTrace, pump_deliveries, pump_stream]

theorem err_marker_mem_errTrace (raw : String) :
    Event.err none ∈ errTrace true raw := by
  simp [errTrace, pump_deliveries, pump_stream]

/-- C2: for every piped stream, the pump invokes the callback once per real
line in order, then exactly once with the end-of-stream marker `none`, and
the marker call comes only after the last real line: the marker count is 1,
the marker is the final delivery, and everything before it is exactly the
stream's lines. -/
theorem pump_stream_marker_exactly_once (stream : List String) :
    (pump_stream stream).count none = 1 ∧
    (pump_stream stream).getLast? = some none ∧
    (pump_stream stream).dropLast = stream.map some := by
  refine ⟨?_, ?_, ?_⟩
  · simp [pump_stream, List.count_append, List.count_eq_zero]
  · simp [pump_stream]
  · simp [pump_stream]

/-- C3: a command whose stdout stream contains exactly the lines `a`, `b`,
`c` (raw contents `"a\nb\nc\n"`) and exits 0 makes `get_output` return
`"a\nb\nc"`: the marker is discarded, the captured lines joined, and the
surrounding whitespace trimmed. -/
theorem get_output_captures_joined_trimmed (s : RunnerState)
    (args : List String) :
    (get_output s args "a\nb\nc\n" 0).2 = Except.ok "a\nb\nc" := by
  rfl

/-- C4: `check_call` returns normally when the child exits 0 and raises
`CalledProcessError` carrying the argument vector and the child's exit code
when the child exits nonzero. -/
theorem check_call_exit_code_roundtrip (s : RunnerState)
    (args : List String) (retcode : Int) :
    (retcode = 0 → (check_call s args retcode).2 = Except.ok ()) ∧
    (retcode ≠ 0 →
      (check_call s args retcode).2 =
        Except.error ⟨retcode, args, none⟩) := by
  constructor
  · intro h
    simp [check_call, run_command, next_track, h]
  · intro h
    simp [check_call, run_command, next_track, h]

theorem check_call_exit_code_roundtrip_w :
    ((check_call initRunner ["x"] 0).2 = Except.ok ()) ∧
    ((check_call initRunner ["x"] 3).2 =
      Except.error ⟨3, ["x"], none⟩) :=
  ⟨(check_call_exit_code_roundtrip initRunner ["x"] 0).1 rfl,
    (check_call_exit_code_roundtrip initRunner ["x"] 3).2 (by decide)⟩

/-- C5: when the child exits nonzero, `get_output` does not raise inside
`run_command`'s protocol but remembers the failure, finishes collecting the
captured output, and raises `CalledProcessError` carrying the exit code,
the argument vector and the captured (possibly empty) stdout text. -/
theorem get_output_defers_failure (s : RunnerState) (args : List String)
    (rawStdout : String) (retcode : Int) (h : retcode ≠ 0) :
    (get_output s args rawStdout retcode).2 =
      Except.error ⟨retcode, args,
        some (pyStrip (joinStrings (readLines rawStdout)))⟩ := by
  simp [get_output, run_command, next_track, h, pump_deliveries,
    pump_stream]

theorem get_output_defers_failure_w :
    (1 : Int) ≠ 0 ∧
    (get_output initRunner ["x"] "partial" 1).2 =
      Except.error ⟨1, ["x"], some "partial"⟩ :=
  ⟨by decide,
    (get_output_defers_failure initRunner ["x"] "partial" 1
      (by decide)).trans (by rfl)⟩

/-- C6: the track sequencer returns 1 on the first invocation of any
execution mode and each subsequent invocation — whichever of `check_call`,
`get_output`, `popen` it is — draws exactly one more than the previous,
because all three increment the one shared counter: any sequence of `n`
invocations from a fresh runner draws exactly the tracks `1, 2, …, n` in
order. -/
theorem track_sequencer_consecutive (ms : List Mode) :
    run_invocations initRunner ms = List.range' 1 ms.length := by
  suffices h : ∀ (c : Nat) (ms : List Mode),
      run_invocations ⟨c⟩ ms = List.range' (c + 1) ms.length from
    h 0 ms
  intro c ms
  induction ms generalizing c with
  | nil => rfl
  | cons m ms ih =>
    cases m <;>
      simp [run_invocations, invoke_track, next_track, popen_track, ih,
        List.range'_succ]

/-- C1: when a completion callback is supplied, every possible launch
trace with at least one started pump contains the `complete` event exactly
once, and only after every started pump has delivered its end-of-stream
marker; a launch in which no pumps were started (no piped streams) never
produces a `complete` event, i.e. `on_complete` is never invoked. -/
theorem launch_on_complete_exactly_once (outPiped errPiped : Bool)
    (outRaw errRaw : String) (tr : List Event)
    (h : LaunchTrace outPiped errPiped outRaw errRaw true tr) :
    ((outPiped || errPiped) = true →
      tr.count Event.complete = 1 ∧
      ∃ base, tr = base ++ [Event.complete] ∧
        Event.complete ∉ base ∧
        (outPiped = true → Event.out none ∈ base) ∧
        (errPiped = true → Event.err none ∈ base)) ∧
    ((outPiped || errPiped) = false → Event.complete ∉ tr) := by
  obtain ⟨base, hint, htr⟩ := h
  have hbase0 : base.count Event.complete = 0 := by
    rw [hint.count Event.complete, count_complete_outTrace,
      count_complete_errTrace]
  constructor
  · intro hp
    subst htr
    rw [hp]
    simp only [Bool.and_true, Bool.true_and, if_true]
    refine ⟨?_, base, rfl, ?_, ?_, ?_⟩
    · simp [List.count_append, hbase0]
    · exact List.count_eq_zero.mp hbase0
    · intro hop
      rw [hop] at hint
      exact hint.mem_iff.mpr (Or.inl (out_marker_mem_outTrace outRaw))
    · intro hep
      rw [hep] at hint
      exact hint.mem_iff.mpr (Or.inr (err_marker_mem_errTrace errRaw))
  · intro hp
    subst htr
    rw [hp]
    simp only [Bool.and_false, Bool.false_eq_true, if_false,
      List.append_nil]
    have hop : outPiped = false := by
      cases outPiped <;> simp_all
    have hep : errPiped = false := by
      cases errPiped <;> simp_all
    rw [hop, hep] at hint
    intro hmem
    rcases hint.mem_iff.mp hmem with hmo | hme
    · simp [outTrace] at hmo
    · simp [errTrace] at hme

theorem launch_on_complete_exactly_once_w :
    LaunchTrace true true "x\n" "" true
      [Event.out (some "x\n"), Event.out none, Event.err none,
        Event.complete] ∧
    ([Event.out (some "x\n"), Event.out none, Event.err none,
        Event.complete].count Event.complete = 1) := by
  have e1 : outTrace true "x\n" = [Event.out (some "x\n"), Event.out none] :=
    by decide
  have e2 : errTrace true "" = [Event.err none] := by decide
  have hl : LaunchTrace true true "x\n" "" true
      [Event.out (some "x\n"), Event.out none, Event.err none,
        Event.complete] := by
    refine ⟨[Event.out (some "x\n"), Event.out none, Event.err none],
      ?_, by decide⟩
    have h := Interleave.append_schedule (outTrace true "x\n")
      (errTrace true "")
    rw [e1, e2] at h
    exact h
  exact ⟨hl,
    ((launch_on_complete_exactly_once true true "x\n" "" _ hl).1 rfl).1⟩

/-- C7 counterexample: a launch whose keyword arguments carry the `input`
key with an empty bytes payload returns normally with a piped stdin, but
the pipe is never written to nor closed (`if in_data:` is false for an
empty payload), so the claim that the Launcher always writes the payload
and closes the pipe before returning fails for the empty payload. -/
theorem launch_stdin_empty_payload_cex :
    launch_stdin ⟨true, Payload.bytes "", none⟩ =
      Except.ok ⟨StdinSpec.pipe, "", false⟩ ∧
    (⟨StdinSpec.pipe, "", false⟩ : StdinResult).closed ≠ true := by
  refine ⟨by rfl, by decide⟩

/-- C7 (amended): for every launch specification carrying an input payload
and no explicit stdin override, the child's input stream is a pipe: when
the payload is non-empty bytes, the full decoded payload is written to the
pipe and the pipe is closed before `launch_command` returns; a non-empty
text payload makes `launch_command` raise `TypeError` at the write
(`str(in_data, "utf-8")` accepts only bytes); an empty (falsy) payload
leaves the pipe unwritten and open; and carrying an input payload together
with an explicit stdin override raises `AssertionError` instead of
configuring a pipe. -/
theorem launch_stdin_payload_behaviour (kw : LaunchKwargs)
    (hin : kw.hasInput = true) :
    (kw.stdinOverride = none →
      (∀ d, kw.inputData = Payload.bytes d → d ≠ "" →
        launch_stdin kw = Except.ok ⟨StdinSpec.pipe, d, true⟩) ∧
      (∀ d, kw.inputData = Payload.text d → d ≠ "" →
        launch_stdin kw = Except.error PyError.typeError) ∧
      (kw.inputData.truthy = false →
        launch_stdin kw = Except.ok ⟨StdinSpec.pipe, "", false⟩)) ∧
    (∀ s, kw.stdinOverride = some s →
      launch_stdin kw = Except.error PyError.assertionError) := by
  constructor
  · intro hov
    refine ⟨?_, ?_, ?_⟩
    · intro d hd hne
      simp [launch_stdin, hin, hov, hd, Payload.truthy, hne]
    · intro d hd hne
      simp [launch_stdin, hin, hov, hd, Payload.truthy, hne]
    · intro hfalsy
      simp [launch_stdin, hin, hov, hfalsy]
  · intro s hs
    simp [launch_stdin, hin, hs]

theorem launch_stdin_payload_behaviour_w :
    (⟨true, Payload.bytes "hello", none⟩ : LaunchKwargs).hasInput = true ∧
    launch_stdin ⟨true, Payload.bytes "hello", none⟩ =
      Except.ok ⟨StdinSpec.pipe, "hello", true⟩ :=
  ⟨rfl, (((launch_stdin_payload_behaviour ⟨true, Payload.bytes "hello", none⟩
    rfl).1 rfl).1 "hello" rfl (by decide))⟩

/-- C8 counterexample: for the stream with raw contents `"a\n"` the pump
delivers the line `"a\n"` to the callback verbatim — the trailing newline
is not stripped, although the newline-stripped text would be `"a"`. -/
theorem pump_line_not_newline_stripped_cex :
    pump_deliveries "a\n" = [some "a\n", none] ∧
    rstripNewline "a\n" = "a" ∧
    (some "a\n" : Option String) ≠ some "a" := by
  refine ⟨by decide, by decide, by decide⟩

/-- C8 (amended): for every line read by a stream pump, the text delivered
to the line callback is the line exactly as read from the text stream,
including its trailing newline (platform endings are normalized to `'\n'`
by text mode, but the newline is not stripped): the real deliveries are
exactly the lines read, and concatenating the lines read reproduces the
raw stream contents character for character. -/
theorem pump_delivers_lines_verbatim (raw : String) :
    (pump_deliveries raw).dropLast = (readLines raw).map some ∧
    joinStrings (readLines raw) = raw :=
  ⟨by simp [pump_deliveries, pump_stream], joinStrings_readLines raw⟩

/-- C9 counterexample: the logger prefix is `"{:>3d}".format(track)` —
space-padded, right-aligned — so a captured line on track 7 is written
with the prefix `"  7"`, not the zero-padded `"007"` the claim states. -/
theorem track_prefix_not_zero_padded_cex :
    (make_logger 7 false ⟨[], []⟩ (some "hello")).sink =
      [("  7", "hello")] ∧ ("  7" : String) ≠ "007" := by
  refine ⟨by decide, by decide⟩

/-- C9 (amended): for every track id, captured process output lines are
written to the log sink with the track number right-aligned in a
three-character field padded with spaces on the left; e.g. track 7
produces the prefix `"  7"`. -/
theorem track_prefix_space_padded (track : Nat) (st : LogState)
    (l : String) :
    (make_logger track false st (some l)).sink =
      st.sink ++ [(formatTrack track, l)] ∧
    (make_logger track true st (some l)).sink =
      st.sink ++ [(formatTrack track, l)] ∧
    (formatTrack track).length = max 3 (toString track).length ∧
    formatTrack 7 = "  7" := by
  refine ⟨?_, ?_, ?_, by decide⟩
  · simp [make_logger, logger_plain]
  · simp [make_logger, logger_capture]
  · simp only [formatTrack, String.length_append, String.length_mk,
      List.length_replicate]
    omega

/-- C10: neither logger variant ever writes the end-of-stream marker to
the output sink — a `none` line leaves the sink unchanged and only real
lines are written (with the track prefix) — while the capturing variant
still appends the `none` marker to its capture list. -/
theorem make_logger_never_writes_marker (track : Nat) (st : LogState)
    (l : String) :
    (make_logger track false st none).sink = st.sink ∧
    (make_logger track true st none).sink = st.sink ∧
    (make_logger track true st none).capture = st.capture ++ [none] ∧
    (make_logger track false st none).capture = st.capture ∧
    (make_logger track false st (some l)).sink =
      st.sink ++ [(formatTrack track, l)] ∧
    (make_logger track true st (some l)).sink =
      st.sink ++ [(formatTrack track, l)] ∧
    (make_logger track true st (some l)).capture =
      st.capture ++ [some l] := by
  refine ⟨?_, ?_, ?_, ?_, ?_, ?_, ?_⟩ <;>
    simp [make_logger, logger_plain, logger_capture]

end Telepresence
